import Mathlib

/-!
Verification of the `ncd-tools` command-line utilities (`ncd-build`,
`ncd-lookup`) against their specification.  Byte strings are modelled as
`List Nat` (each element a `u8` value), Rust `Option<&str>` values as
`Option` types, and the floating-point configuration knobs as exact
rationals (they are only stored and compared, never computed with).
Results of fallible library calls are modelled as `Except` values.
-/

/-- A byte is a UTF-8 continuation byte (`0x80 ..= 0xBF`). -/
def isContByte (b : Nat) : Bool := 0x80 ≤ b && b ≤ 0xBF

/-- UTF-8 validity of a byte sequence, as decided by Rust's
`String::from_utf8` (the standard UTF-8 table: continuation bytes
`0x80..=0xBF`, two-byte leads `0xC2..=0xDF`, three-byte leads
`0xE0..=0xEF` with the `0xE0`/`0xED` overlong and surrogate
restrictions, four-byte leads `0xF0..=0xF4` with the `0xF0`/`0xF4`
overlong and too-large restrictions). -/
def validUtf8 : List Nat → Bool
  | [] => true
  | [b] => b ≤ 0x7F
  | [b, c1] =>
      if b ≤ 0x7F then validUtf8 [c1]
      else if 0xC2 ≤ b ∧ b ≤ 0xDF then isContByte c1
      else false
  | [b, c1, c2] =>
      if b ≤ 0x7F then validUtf8 [c1, c2]
      else if 0xC2 ≤ b ∧ b ≤ 0xDF then isContByte c1 && validUtf8 [c2]
      else if b = 0xE0 then (0xA0 ≤ c1 && c1 ≤ 0xBF) && isContByte c2
      else if (0xE1 ≤ b ∧ b ≤ 0xEC) ∨ b = 0xEE ∨ b = 0xEF then isContByte c1 && isContByte c2
      else if b = 0xED then (0x80 ≤ c1 && c1 ≤ 0x9F) && isContByte c2
      else false
  | b :: c1 :: c2 :: c3 :: rest =>
      if b ≤ 0x7F then validUtf8 (c1 :: c2 :: c3 :: rest)
      else if 0xC2 ≤ b ∧ b ≤ 0xDF then isContByte c1 && validUtf8 (c2 :: c3 :: rest)
      else if b = 0xE0 then (0xA0 ≤ c1 && c1 ≤ 0xBF) && isContByte c2 && validUtf8 (c3 :: rest)
      else if (0xE1 ≤ b ∧ b ≤ 0xEC) ∨ b = 0xEE ∨ b = 0xEF then
        isContByte c1 && isContByte c2 && validUtf8 (c3 :: rest)
      else if b = 0xED then (0x80 ≤ c1 && c1 ≤ 0x9F) && isContByte c2 && validUtf8 (c3 :: rest)
      else if b = 0xF0 then
        (0x90 ≤ c1 && c1 ≤ 0xBF) && isContByte c2 && isContByte c3 && validUtf8 rest
      else if 0xF1 ≤ b ∧ b ≤ 0xF3 then
        isContByte c1 && isContByte c2 && isContByte c3 && validUtf8 rest
      else if b = 0xF4 then
        (0x80 ≤ c1 && c1 ≤ 0x8F) && isContByte c2 && isContByte c3 && validUtf8 rest
      else false

/-- The declared length of a UTF-8 character encoding, from its lead
byte (`none` when the byte cannot begin a character). -/
def utf8CharLen (b : Nat) : Option Nat :=
  if b ≤ 0x7F then some 1
  else if 0xC2 ≤ b ∧ b ≤ 0xDF then some 2
  else if 0xE0 ≤ b ∧ b ≤ 0xEF then some 3
  else if 0xF0 ≤ b ∧ b ≤ 0xF4 then some 4
  else none

/-- The list `e` is the complete UTF-8 encoding of one codepoint. -/
def isCharEncoding (e : List Nat) : Bool :=
  validUtf8 e &&
    (match e with
     | b :: _ => utf8CharLen b = some e.length
     | [] => false)

/-- The list `t` is a nonempty proper initial segment of the UTF-8
encoding of one codepoint: a codepoint truncated mid-encoding. -/
def isPartialChar (t : List Nat) : Prop :=
  t ≠ [] ∧ ∃ e, isCharEncoding e = true ∧ t <+: e ∧ t.length < e.length

namespace NcdBuild

/-- The bytes rejected outright by the first loop of `looks_like_utf8`
in `src/bin/ncd-build.rs`: `0xC0`, `0xC1`, or anything above `0xF4`. -/
def badByte (b : Nat) : Bool := b = 0xC0 || b = 0xC1 || 0xF4 < b

/-- The chopping `while` loop of `looks_like_utf8` (`ncd-build.rs`
lines 13-17), acting on the *reversed* byte list: while fewer than three
bytes have been chopped and the last remaining byte lies strictly
between `0x7F` and `0xC0`, drop it.  Returns the remaining reversed
list and the chop count. -/
def chopContsRev : List Nat → Nat → List Nat × Nat
  | b :: rest, chop =>
    if chop < 3 ∧ 0x7F < b ∧ b < 0xC0 then chopContsRev rest (chop + 1)
    else (b :: rest, chop)
  | [], chop => ([], chop)

/-- Function `looks_like_utf8` from `src/bin/ncd-build.rs`: reject `0xC0`, `0xC1`
and bytes above `0xF4` anywhere; accept valid UTF-8; otherwise chop up
to three trailing continuation bytes and then one trailing byte above
`0xBF`, reject if that chopped everything, and finally test the
remaining prefix for UTF-8 validity. -/
def looks_like_utf8 (bytes : List Nat) : Bool :=
  if bytes.any badByte then false
  else if validUtf8 bytes then true
  else
    let r := chopContsRev bytes.reverse 0
    let v1 : List Nat × Nat :=
      match r.1 with
      | b :: rest => if 0xBF < b then (rest, r.2 + 1) else (b :: rest, r.2)
      | [] => ([], r.2)
    if 0 < v1.2 ∧ v1.1 = [] then false
    else validUtf8 v1.1.reverse

/-- A byte string that is a valid UTF-8 string truncated mid-codepoint,
with the truncation point at most three bytes from the end of the
input: a valid UTF-8 prefix followed by a partial codepoint of at most
three bytes. -/
def truncatedMidCodepoint (bytes : List Nat) : Prop :=
  ∃ p t, bytes = p ++ t ∧ validUtf8 p = true ∧ isPartialChar t ∧ t.length ≤ 3

/-- A byte string emptied by the chop of `looks_like_utf8`: up to three
trailing continuation bytes, optionally preceded by one byte above
`0xBF`, and nothing else. -/
def chopConsumable (bytes : List Nat) : Prop :=
  ∃ cs, cs.length ≤ 3 ∧ (∀ c ∈ cs, isContByte c = true) ∧
    (bytes = cs ∨ ∃ l, 0xBF < l ∧ bytes = l :: cs)

/-- Build configuration of the `ncd` library.  `external_trheshold`
keeps the source's (misspelled) field name. -/
structure NCDBuildConfig where
  target_page_size : Nat
  target_load_factor : ℚ
  heap_wiggle_room : ℚ
  min_entries_per_page : Nat
  external_trheshold : ℚ
  rebuild_page_factor : ℚ
  force_header_size : Option Nat

/-- Modelled from the spec: `NCDBuildConfig::new` lives in the `ncd`
library, outside this repository's sources; the spec gives its defaults
as page size 32768, load factor 0.5, heap wiggle room 1.25, minimum
100 entries per page, external threshold 0.1, rebuild page factor 1.2,
and no forced header size. -/
def NCDBuildConfig.new : NCDBuildConfig :=
  ⟨32768, 0.5, 1.25, 100, 0.1, 1.2, none⟩

/-- Function `make_careful_config` from `ncd-build.rs`: the defaults with the
four overridden knobs (the library's chained builder methods are
modelled as a record update). -/
def make_careful_config : NCDBuildConfig :=
  { NCDBuildConfig.new with
      target_page_size := 16384
      heap_wiggle_room := 1.1
      target_load_factor := 0.75
      rebuild_page_factor := 1.1 }

/-- Flat-source configuration of the `ncd` library (field names follow
the library's getters). -/
structure NCDFlatConfig where
  index : Nat
  separator : Option String
  skip_blank : Bool
  comment_char : Option String
  inline_comments : Bool
  trim_tail : Bool

/-- Modelled from the spec: `NCDFlatConfig::new` lives in the `ncd`
library; its defaults are irrelevant here because `make_flat_config`
overrides every field, but the spec's flat-source description fixes
them as field 1, whitespace separator, skip blanks, no comments, trim
trailing whitespace. -/
def NCDFlatConfig.new : NCDFlatConfig :=
  ⟨1, none, true, none, false, true⟩

/-- The flat-format command-line options of `ncd-build`, after `clap`
parsing.  `field` always carries a value because the option declares a
default of 1 (and its validator guarantees it parses as an integer);
`clap`'s `requires` rule makes `inline_comments` imply that `comment`
is present. -/
structure FlatMatches where
  field : Nat
  delimiter : Option String
  keep_blank : Bool
  comment : Option String
  inline_comments : Bool
  keep_tail : Bool

/-- Function `make_flat_config` from `ncd-build.rs` (the library's chained
builder methods are modelled as a record update). -/
def make_flat_config (m : FlatMatches) : NCDFlatConfig :=
  { NCDFlatConfig.new with
      index := m.field
      separator := m.delimiter
      skip_blank := !m.keep_blank
      comment_char := m.comment
      inline_comments := m.inline_comments
      trim_tail := !m.keep_tail }

/-- The build-tuning command-line options of `ncd-build`, after `clap`
parsing: `none` when the option is absent.  Values are modelled
post-parse (`str_to_u32` / `str_to_f64` abort the process on
unparseable input, so no configuration results in that case). -/
structure BuildMatches where
  page_size : Option Nat
  load_factor : Option ℚ
  heap_wiggle : Option ℚ
  min_entries : Option Nat
  external_threshold : Option ℚ
  rebuild_factor : Option ℚ
  force_header_size : Option Nat

/-- Function `modify_build_config` from `ncd-build.rs`: apply each present
option to the configuration, in source order. -/
def modify_build_config (config : NCDBuildConfig) (m : BuildMatches) : NCDBuildConfig :=
  let config :=
    match m.page_size with
    | some v => { config with target_page_size := v }
    | none => config
  let config :=
    match m.load_factor with
    | some v => { config with target_load_factor := v }
    | none => config
  let config :=
    match m.heap_wiggle with
    | some v => { config with heap_wiggle_room := v }
    | none => config
  let config :=
    match m.min_entries with
    | some v => { config with min_entries_per_page := v }
    | none => config
  let config :=
    match m.external_threshold with
    | some v => { config with external_trheshold := v }
    | none => config
  let config :=
    match m.rebuild_factor with
    | some v => { config with rebuild_page_factor := v }
    | none => config
  match m.force_header_size with
  | some v => { config with force_header_size := some v }
  | none => config

/-- The aspects of a `ncd-build` run that decide its file-level
behaviour: whether the input path exists, whether `File::create` on the
output path succeeds, the result of opening the value source, the
result of the build attempt loop, and — modelled from the spec, which
says the library's output is "truncated or removed" on failure —
whether the `ncd` library removes (rather than merely truncates) the
output file when an attempt fails fatally. -/
structure BuildWorld where
  inputExists : Bool
  createOk : Bool
  sourceResult : Except String Unit
  buildResult : Except String Unit
  libRemovesOutput : Bool

/-- Function `main` from `ncd-build.rs`, as a function from a `BuildWorld` to
the pair (process exit code, whether a file exists at the output path
afterwards), assuming no file exists there beforehand.  The source
checks the input path, then runs `File::create` on the output path
(creating the file), then opens the source, then runs the build loop;
each failure calls `die`, which prints to stderr and exits with code 1
without touching the created file. -/
def main (w : BuildWorld) : Nat × Bool :=
  if !w.inputExists then (1, false)
  else if !w.createOk then (1, false)
  else
    match w.sourceResult with
    | .error _ => (1, true)
    | .ok _ =>
      match w.buildResult with
      | .error _ => (1, if w.libRemovesOutput then false else true)
      | .ok _ => (0, true)

end NcdBuild

namespace NcdLookup

/-- Accessor choice of `ncd-lookup.rs`. -/
inductive Source where
  | file : Source
  | http : Source

/-- Substring test: `contSub hay pat` holds when `pat` occurs
contiguously in `hay` (the behaviour of Rust's `str::contains` for a
string pattern). -/
def contSub (hay pat : List Char) : Bool :=
  match hay with
  | [] => pat.isEmpty
  | _ :: t => pat.isPrefixOf hay || contSub t pat

/-- Function `guess_source` from `ncd-lookup.rs`: HTTP when the path contains
two consecutive slashes, the local file otherwise. -/
def guess_source (path : List Char) : Source :=
  if contSub path ('/' :: '/' :: []) then Source.http else Source.file

/-- Constructor `Source::new` from `ncd-lookup.rs`. -/
def Source.new (arg : Option (List Char)) (path : List Char) : Source :=
  match arg with
  | some a =>
      if a = ("file").toList then Source.file
      else if a = ("http").toList then Source.http
      else guess_source path
  | none => guess_source path

/-- Observable outcome of one `ncd-lookup` run: exit code, bytes
written to stdout, message printed to stderr (if any). -/
structure LookupOutcome where
  exitCode : Nat
  stdout : List Nat
  stderr : Option String

/-- Function `die` from `ncd-lookup.rs`: print the message to stderr and exit
with code 1. -/
def die (e : String) : LookupOutcome := ⟨1, [], some e⟩

/-- Function `main` from `ncd-lookup.rs`, as a function of the results of the
three fallible library steps it sequences through `die_on_error`:
building the accessor (`make_accessor`, which also dies on a missing
file), building the reader (`NCDFileReader::new_box`), and the lookup
itself (`reader.get`).  A found value is written to stdout followed by
exit code 0; an absent value exits with code 1 and no stderr message.
The stdout write is modelled as succeeding. -/
def main (acc : Except String Unit) (rdr : Except String Unit)
    (get : Except String (Option (List Nat))) : LookupOutcome :=
  match acc with
  | .error e => die e
  | .ok _ =>
    match rdr with
    | .error e => die e
    | .ok _ =>
      match get with
      | .error e => die e
      | .ok (some v) => ⟨0, v, none⟩
      | .ok none => ⟨1, [], none⟩

end NcdLookup

section UtfLemmas

open NcdBuild

/-- Inversion principle for `validUtf8` on a nonempty list: the first
character is ASCII, two-byte, three-byte or four-byte, with the
corresponding byte ranges, and the remainder is valid. -/
theorem validUtf8_cons_inv : ∀ {b : Nat} {rest : List Nat},
    validUtf8 (b :: rest) = true →
    (b ≤ 0x7F ∧ validUtf8 rest = true) ∨
    (∃ c1 rest2, rest = c1 :: rest2 ∧ 0xC2 ≤ b ∧ b ≤ 0xDF ∧
      0x80 ≤ c1 ∧ c1 ≤ 0xBF ∧ validUtf8 rest2 = true) ∨
    (∃ c1 c2 rest2, rest = c1 :: c2 :: rest2 ∧ 0xE0 ≤ b ∧ b ≤ 0xEF ∧
      0x80 ≤ c1 ∧ c1 ≤ 0xBF ∧ 0x80 ≤ c2 ∧ c2 ≤ 0xBF ∧ validUtf8 rest2 = true) ∨
    (∃ c1 c2 c3 rest2, rest = c1 :: c2 :: c3 :: rest2 ∧ 0xF0 ≤ b ∧ b ≤ 0xF4 ∧
      0x80 ≤ c1 ∧ c1 ≤ 0xBF ∧ 0x80 ≤ c2 ∧ c2 ≤ 0xBF ∧ 0x80 ≤ c3 ∧ c3 ≤ 0xBF ∧
      validUtf8 rest2 = true) := by
  intro b rest h
  rcases rest with _ | ⟨c1, _ | ⟨c2, _ | ⟨c3, rest2⟩⟩⟩
  · rw [validUtf8] at h
    exact Or.inl ⟨by simpa using h, rfl⟩
  · rw [validUtf8] at h
    split_ifs at h with h1 h2
    · exact Or.inl ⟨h1, h⟩
    · simp only [isContByte, Bool.and_eq_true, decide_eq_true_eq] at h
      exact Or.inr (Or.inl ⟨c1, [], rfl, h2.1, h2.2, h.1, h.2, rfl⟩)
  · rw [validUtf8] at h
    split_ifs at h with h1 h2 h3 h4 h5
    · exact Or.inl ⟨h1, h⟩
    · simp only [isContByte, Bool.and_eq_true, decide_eq_true_eq] at h
      exact Or.inr (Or.inl ⟨c1, [c2], rfl, h2.1, h2.2, h.1.1, h.1.2, h.2⟩)
    · simp only [isContByte, Bool.and_eq_true, decide_eq_true_eq] at h
      exact Or.inr (Or.inr (Or.inl ⟨c1, c2, [], rfl, by omega, by omega,
        by omega, h.1.2, h.2.1, h.2.2, rfl⟩))
    · simp only [isContByte, Bool.and_eq_true, decide_eq_true_eq] at h
      exact Or.inr (Or.inr (Or.inl ⟨c1, c2, [], rfl, by omega, by omega,
        h.1.1, h.1.2, h.2.1, h.2.2, rfl⟩))
    · simp only [isContByte, Bool.and_eq_true, decide_eq_true_eq] at h
      exact Or.inr (Or.inr (Or.inl ⟨c1, c2, [], rfl, by omega, by omega,
        h.1.1, by omega, h.2.1, h.2.2, rfl⟩))
  · rw [validUtf8] at h
    split_ifs at h with h1 h2 h3 h4 h5 h6 h7 h8
    · exact Or.inl ⟨h1, h⟩
    · simp only [isContByte, Bool.and_eq_true, decide_eq_true_eq] at h
      exact Or.inr (Or.inl ⟨c1, c2 :: c3 :: rest2, rfl, h2.1, h2.2, h.1.1, h.1.2, h.2⟩)
    · simp only [isContByte, Bool.and_eq_true, decide_eq_true_eq] at h
      exact Or.inr (Or.inr (Or.inl ⟨c1, c2, c3 :: rest2, rfl, by omega, by omega,
        by omega, h.1.1.2, h.1.2.1, h.1.2.2, h.2⟩))
    · simp only [isContByte, Bool.and_eq_true, decide_eq_true_eq] at h
      exact Or.inr (Or.inr (Or.inl ⟨c1, c2, c3 :: rest2, rfl, by omega, by omega,
        h.1.1.1, h.1.1.2, h.1.2.1, h.1.2.2, h.2⟩))
    · simp only [isContByte, Bool.and_eq_true, decide_eq_true_eq] at h
      exact Or.inr (Or.inr (Or.inl ⟨c1, c2, c3 :: rest2, rfl, by omega, by omega,
        h.1.1.1, by omega, h.1.2.1, h.1.2.2, h.2⟩))
    · simp only [isContByte, Bool.and_eq_true, decide_eq_true_eq] at h
      exact Or.inr (Or.inr (Or.inr ⟨c1, c2, c3, rest2, rfl, by omega, by omega,
        by omega, h.1.1.1.2, h.1.1.2.1, h.1.1.2.2, h.1.2.1, h.1.2.2, h.2⟩))
    · simp only [isContByte, Bool.and_eq_true, decide_eq_true_eq] at h
      exact Or.inr (Or.inr (Or.inr ⟨c1, c2, c3, rest2, rfl, by omega, by omega,
        h.1.1.1.1, h.1.1.1.2, h.1.1.2.1, h.1.1.2.2, h.1.2.1, h.1.2.2, h.2⟩))
    · simp only [isContByte, Bool.and_eq_true, decide_eq_true_eq] at h
      exact Or.inr (Or.inr (Or.inr ⟨c1, c2, c3, rest2, rfl, by omega, by omega,
        h.1.1.1.1, by omega, h.1.1.2.1, h.1.1.2.2, h.1.2.1, h.1.2.2, h.2⟩))

theorem badByte_eq_false {b : Nat} (h1 : b ≠ 0xC0) (h2 : b ≠ 0xC1) (h3 : b ≤ 0xF4) :
    badByte b = false := by
  simp only [badByte, Bool.or_eq_false_iff, decide_eq_false_iff_not]
  omega

theorem validUtf8_no_bad : ∀ (n : Nat) (l : List Nat), l.length ≤ n →
    validUtf8 l = true → ∀ b ∈ l, badByte b = false := by
  intro n
  induction n with
  | zero =>
    intro l hl _ b hb
    rcases l with _ | ⟨a, rest⟩
    · simp at hb
    · simp at hl
  | succ n ih =>
    intro l hl hv b hb
    rcases l with _ | ⟨a, rest⟩
    · simp at hb
    · rcases validUtf8_cons_inv hv with
        ⟨ha, hrest⟩ |
        ⟨c1, rest2, rfl, hb1, hb2, hc1, hc2, hrest⟩ |
        ⟨c1, c2, rest2, rfl, hb1, hb2, hc1, hc2, hd1, hd2, hrest⟩ |
        ⟨c1, c2, c3, rest2, rfl, hb1, hb2, hc1, hc2, hd1, hd2, he1, he2, hrest⟩
      · rcases List.mem_cons.1 hb with rfl | hb
        · exact badByte_eq_false (by omega) (by omega) (by omega)
        · exact ih rest (by simp at hl; omega) hrest b hb
      · simp only [List.mem_cons] at hb
        rcases hb with rfl | rfl | hb
        · exact badByte_eq_false (by omega) (by omega) (by omega)
        · exact badByte_eq_false (by omega) (by omega) (by omega)
        · exact ih rest2 (by simp at hl; omega) hrest b hb
      · simp only [List.mem_cons] at hb
        rcases hb with rfl | rfl | rfl | hb
        · exact badByte_eq_false (by omega) (by omega) (by omega)
        · exact badByte_eq_false (by omega) (by omega) (by omega)
        · exact badByte_eq_false (by omega) (by omega) (by omega)
        · exact ih rest2 (by simp at hl; omega) hrest b hb
      · simp only [List.mem_cons] at hb
        rcases hb with rfl | rfl | rfl | rfl | hb
        · exact badByte_eq_false (by omega) (by omega) (by omega)
        · exact badByte_eq_false (by omega) (by omega) (by omega)
        · exact badByte_eq_false (by omega) (by omega) (by omega)
        · exact badByte_eq_false (by omega) (by omega) (by omega)
        · exact ih rest2 (by simp at hl; omega) hrest b hb

theorem validUtf8_any_bad_false {l : List Nat} (hv : validUtf8 l = true) :
    l.any badByte = false := by
  rw [List.any_eq_false]
  intro b hb
  simpa using validUtf8_no_bad l.length l le_rfl hv b hb

/-- A truncated codepoint of at most three bytes is one lead byte in
`0xC2..=0xF4` followed by at most two continuation bytes. -/
theorem partialChar_structure {t : List Nat} (h : isPartialChar t) :
    ∃ b cs, t = b :: cs ∧ 0xC2 ≤ b ∧ b ≤ 0xF4 ∧ cs.length ≤ 2 ∧
      ∀ c ∈ cs, 0x80 ≤ c ∧ c ≤ 0xBF := by
  obtain ⟨hne, e, hchar, hpre, hlt⟩ := h
  obtain ⟨suf, hsuf⟩ := hpre
  rcases t with _ | ⟨b, t2⟩
  · exact absurd rfl hne
  · subst hsuf
    simp only [isCharEncoding, Bool.and_eq_true, decide_eq_true_eq] at hchar
    obtain ⟨hv, hlen⟩ := hchar
    simp only [List.cons_append, List.length_cons, List.length_append] at hlen hlt
    rw [List.cons_append] at hv
    rw [utf8CharLen] at hlen
    split_ifs at hlen with h1 h2 h3 h4
    · simp only [decide_eq_true_eq, Option.some.injEq] at hlen
      omega
    · simp only [decide_eq_true_eq, Option.some.injEq] at hlen
      refine ⟨b, t2, rfl, h2.1, by omega, by omega, ?_⟩
      intro c hc
      have ht2 : t2 = [] := List.length_eq_zero.mp (by omega)
      subst ht2
      simp at hc
    · simp only [decide_eq_true_eq, Option.some.injEq] at hlen
      refine ⟨b, t2, rfl, by omega, by omega, by omega, ?_⟩
      rcases validUtf8_cons_inv hv with
        ⟨ha, _⟩ |
        ⟨c1, rest2, heq, hb1, hb2, _⟩ |
        ⟨c1, c2, rest2, heq, hb1, hb2, hc1, hc2, hd1, hd2, _⟩ |
        ⟨c1, c2, c3, rest2, heq, hb1, hb2, _⟩
      · omega
      · omega
      · intro c hc
        have hsub : c ∈ t2 ++ suf := List.mem_append_left _ hc
        rw [heq] at hsub
        have hlen2 := congrArg List.length heq
        simp only [List.length_append, List.length_cons] at hlen2
        have h2r : rest2 = [] := List.length_eq_zero.mp (by omega)
        subst h2r
        simp only [List.mem_cons, List.not_mem_nil, or_false] at hsub
        rcases hsub with rfl | rfl
        · exact ⟨hc1, hc2⟩
        · exact ⟨hd1, hd2⟩
      · have hlen2 := congrArg List.length heq
        simp only [List.length_append, List.length_cons] at hlen2
        omega
    · simp only [decide_eq_true_eq, Option.some.injEq] at hlen
      refine ⟨b, t2, rfl, by omega, by omega, by omega, ?_⟩
      rcases validUtf8_cons_inv hv with
        ⟨ha, _⟩ |
        ⟨c1, rest2, heq, hb1, hb2, _⟩ |
        ⟨c1, c2, rest2, heq, hb1, hb2, _⟩ |
        ⟨c1, c2, c3, rest2, heq, hb1, hb2, hc1, hc2, hd1, hd2, he1, he2, _⟩
      · omega
      · omega
      · omega
      · intro c hc
        have hsub : c ∈ t2 ++ suf := List.mem_append_left _ hc
        rw [heq] at hsub
        have hlen2 := congrArg List.length heq
        simp only [List.length_append, List.length_cons] at hlen2
        have h2r : rest2 = [] := List.length_eq_zero.mp (by omega)
        subst h2r
        simp only [List.mem_cons, List.not_mem_nil, or_false] at hsub
        rcases hsub with rfl | rfl | rfl
        · exact ⟨hc1, hc2⟩
        · exact ⟨hd1, hd2⟩
        · exact ⟨he1, he2⟩
    · simp at hlen

theorem chopContsRev_append : ∀ (cs : List Nat) (tail : List Nat) (chop : Nat),
    (∀ c ∈ cs, 0x7F < c ∧ c < 0xC0) → chop + cs.length ≤ 3 →
    chopContsRev (cs ++ tail) chop = chopContsRev tail (chop + cs.length) := by
  intro cs
  induction cs with
  | nil => intro tail chop _ _; simp
  | cons c cs ih =>
    intro tail chop hmem hlen
    have hc := hmem c (List.mem_cons_self c cs)
    simp only [List.cons_append, chopContsRev]
    rw [if_pos ⟨by simp at hlen; omega, hc.1, hc.2⟩]
    simp only [List.append_eq]
    rw [ih tail (chop + 1) (fun x hx => hmem x (List.mem_cons_of_mem c hx))
      (by simp at hlen ⊢; omega)]
    congr 1
    simp
    omega

theorem chopContsRev_stop (b : Nat) (rest : List Nat) (chop : Nat)
    (h : ¬(chop < 3 ∧ 0x7F < b ∧ b < 0xC0)) :
    chopContsRev (b :: rest) chop = (b :: rest, chop) := by
  rw [chopContsRev, if_neg h]

/-- A valid nonempty prefix followed by a truncated multibyte
character (one lead byte in `0xC2..=0xF4` plus at most two continuation
bytes) is accepted by `looks_like_utf8`. -/
theorem looks_like_utf8_append_partial (p : List Nat) (b : Nat) (cs : List Nat)
    (hp : validUtf8 p = true) (hpne : p ≠ [])
    (hb1 : 0xC2 ≤ b) (hb2 : b ≤ 0xF4) (hcslen : cs.length ≤ 2)
    (hcs : ∀ c ∈ cs, 0x80 ≤ c ∧ c ≤ 0xBF) :
    looks_like_utf8 (p ++ b :: cs) = true := by
  have hbad : (p ++ b :: cs).any badByte = false := by
    rw [List.any_append, validUtf8_any_bad_false hp]
    simp only [List.any_cons, Bool.false_or]
    rw [badByte_eq_false (by omega) (by omega) (by omega)]
    simp only [Bool.false_or]
    rw [List.any_eq_false]
    intro c hc
    have := hcs c hc
    simp [badByte_eq_false (show c ≠ 0xC0 by omega) (show c ≠ 0xC1 by omega)
      (show c ≤ 0xF4 by omega)]
  by_cases hv : validUtf8 (p ++ b :: cs) = true
  · simp [looks_like_utf8, hbad, hv]
  · have hv2 : validUtf8 (p ++ b :: cs) = false := by simpa using hv
    have hchop : chopContsRev ((p ++ b :: cs).reverse) 0 = (b :: p.reverse, cs.length) := by
      rw [show (p ++ b :: cs).reverse = cs.reverse ++ (b :: p.reverse) by simp,
        chopContsRev_append cs.reverse (b :: p.reverse) 0
          (fun c hc => by have := hcs c (List.mem_reverse.1 hc); omega)
          (by simp only [List.length_reverse, Nat.zero_add]; omega)]
      rw [chopContsRev_stop _ _ _ (by omega)]
      simp
    have hpr : p.reverse ≠ [] := by simpa using hpne
    simp only [looks_like_utf8, hbad, Bool.false_eq_true, if_false, hv2, hchop]
    rw [if_pos (show 0xBF < b by omega)]
    rw [if_neg (by simp [hpr])]
    simpa using hp

end UtfLemmas

/-- Claim C1: `looks_like_utf8` accepts the empty byte string, and
rejects every byte string containing a byte equal to `0xC0`, equal to
`0xC1`, or greater than `0xF4`. -/
theorem looks_like_utf8_empty_and_badbyte :
    NcdBuild.looks_like_utf8 [] = true ∧
    ∀ bytes : List Nat, (∃ b ∈ bytes, b = 0xC0 ∨ b = 0xC1 ∨ 0xF4 < b) →
      NcdBuild.looks_like_utf8 bytes = false := by
  constructor
  · rfl
  · intro bytes ⟨b, hb, hbad⟩
    have hany : bytes.any NcdBuild.badByte = true := by
      refine List.any_eq_true.2 ⟨b, hb, ?_⟩
      simp only [NcdBuild.badByte, Bool.or_eq_true, decide_eq_true_eq]
      rcases hbad with h | h | h
      · exact Or.inl (Or.inl h)
      · exact Or.inl (Or.inr h)
      · exact Or.inr (by simpa using h)
    simp [NcdBuild.looks_like_utf8, hany]

/-- Witness for C1 at concrete inputs: the empty string is accepted
and `[0x41, 0xC0]` is rejected. -/
theorem looks_like_utf8_empty_and_badbyte_witness :
    NcdBuild.looks_like_utf8 [] = true ∧ NcdBuild.looks_like_utf8 [0x41, 0xC0] = false :=
  ⟨looks_like_utf8_empty_and_badbyte.1,
   looks_like_utf8_empty_and_badbyte.2 [0x41, 0xC0]
     ⟨0xC0, by decide, Or.inl rfl⟩⟩

/-- Claim C2, counterexample: `[0xC2]` is a valid UTF-8 string
truncated mid-codepoint one byte from the end (it is the two-byte
encoding `[0xC2, 0xA2]` of U+00A2 cut short), yet `looks_like_utf8`
rejects it, refuting the claim that every such truncation is
accepted. -/
theorem looks_like_utf8_truncated_counterexample :
    NcdBuild.truncatedMidCodepoint [0xC2] ∧ NcdBuild.looks_like_utf8 [0xC2] = false := by
  constructor
  · exact ⟨[], [0xC2], rfl, rfl,
      ⟨by decide, [0xC2, 0xA2], by decide, ⟨[0xA2], rfl⟩, by decide⟩, by decide⟩
  · decide

/-- Claim C2, amended: a byte string that is a valid UTF-8 string
truncated mid-codepoint at most three bytes from the end is accepted
by `looks_like_utf8`, provided at least one byte precedes the
truncated codepoint. -/
theorem looks_like_utf8_truncated (bytes p t : List Nat)
    (hb : bytes = p ++ t) (hp : validUtf8 p = true) (hpne : p ≠ [])
    (ht : isPartialChar t) (htlen : t.length ≤ 3) :
    NcdBuild.looks_like_utf8 bytes = true := by
  obtain ⟨b, cs, rfl, hb1, hb2, hcslen, hcs⟩ := partialChar_structure ht
  subst hb
  exact looks_like_utf8_append_partial p b cs hp hpne hb1 hb2 hcslen hcs

/-- Witness for the amended C2 at a concrete input: `[0x61, 0xC2]`
(ASCII `a` followed by a truncated two-byte codepoint) is accepted. -/
theorem looks_like_utf8_truncated_witness :
    NcdBuild.looks_like_utf8 [0x61, 0xC2] = true :=
  looks_like_utf8_truncated [0x61, 0xC2] [0x61] [0xC2] rfl (by decide) (by decide)
    ⟨by decide, [0xC2, 0xA2], by decide, ⟨[0xA2], rfl⟩, by decide⟩ (by decide)

/-- Claim C8, counterexample: `[0xC2, 0xA0]` consists solely of bytes
above `0x7F` and is consumed entirely by removing one trailing
continuation byte and one lead byte, yet `looks_like_utf8` accepts it
(it is valid UTF-8, the encoding of U+00A0), refuting the claim that
every such byte string is rejected. -/
theorem looks_like_utf8_chop_consumed_counterexample :
    ([0xC2, 0xA0] : List Nat) ≠ [] ∧ (∀ b ∈ ([0xC2, 0xA0] : List Nat), 0x7F < b) ∧
    NcdBuild.chopConsumable [0xC2, 0xA0] ∧
    NcdBuild.looks_like_utf8 [0xC2, 0xA0] = true :=
  ⟨by decide, by decide,
   ⟨[0xA0], by decide, by decide, Or.inr ⟨0xC2, by decide, rfl⟩⟩, by decide⟩

/-- Claim C8, amended: a nonempty byte string of bytes above `0x7F`
that is consumed entirely by removing up to three trailing continuation
bytes and at most one lead byte is rejected by `looks_like_utf8`,
provided it is not itself valid UTF-8. -/
theorem looks_like_utf8_chop_consumed (bytes : List Nat) (hne : bytes ≠ [])
    (hhigh : ∀ b ∈ bytes, 0x7F < b) (hcc : NcdBuild.chopConsumable bytes)
    (hv : validUtf8 bytes = false) :
    NcdBuild.looks_like_utf8 bytes = false := by
  by_cases hbad : bytes.any NcdBuild.badByte = true
  · simp [NcdBuild.looks_like_utf8, hbad]
  · have hbad2 : bytes.any NcdBuild.badByte = false := by simpa using hbad
    obtain ⟨cs, hlen, hcont, hform | ⟨l, hl, hform⟩⟩ := hcc
    · subst hform
      have hchop : NcdBuild.chopContsRev bytes.reverse 0 = ([], bytes.length) := by
        have h0 := chopContsRev_append bytes.reverse [] 0
          (fun c hc => by
            have := hcont c (List.mem_reverse.1 hc)
            simp only [isContByte, Bool.and_eq_true, decide_eq_true_eq] at this
            omega)
          (by simp only [List.length_reverse, Nat.zero_add]; omega)
        simpa using h0
      have hcs0 : 0 < bytes.length := by
        rcases bytes with _ | _
        · exact absurd rfl hne
        · simp
      simp [NcdBuild.looks_like_utf8, hbad2, hv, hchop, hcs0]
    · subst hform
      have hchop : NcdBuild.chopContsRev (cs.reverse ++ [l]) 0 = ([l], cs.length) := by
        rw [chopContsRev_append cs.reverse [l] 0
          (fun c hc => by
            have := hcont c (List.mem_reverse.1 hc)
            simp only [isContByte, Bool.and_eq_true, decide_eq_true_eq] at this
            omega)
          (by simp only [List.length_reverse, Nat.zero_add]; omega)]
        rw [chopContsRev_stop _ _ _ (by omega)]
        simp
      simp [NcdBuild.looks_like_utf8, hbad2, hv, hchop, hl]

/-- Witness for the amended C8 at a concrete input: the lone truncated
lead byte `[0xC2]` is rejected. -/
theorem looks_like_utf8_chop_consumed_witness :
    NcdBuild.looks_like_utf8 [0xC2] = false :=
  looks_like_utf8_chop_consumed [0xC2] (by decide) (by decide)
    ⟨[], by decide, by decide, Or.inr ⟨0xC2, by decide, rfl⟩⟩ (by decide)

/-- Claim C3, counterexample: a build whose value source fails to open
(an I/O error, a fatal error kind distinct from PageOverflow) exits
with code 1 yet leaves a file at the output path, because `main` runs
`File::create` on the output path before building and `die` exits
without removing it. -/
theorem build_fatal_counterexample :
    NcdBuild.main ⟨true, true, Except.error ("source open failed"), Except.ok (), true⟩ =
      (1, true) := rfl

/-- Claim C3, amended: every fatal error aborts the builder CLI with
exit code 1, but an output file can remain at the output path: errors
before the output file is created leave none; errors after creation
but before the build (for example a source-open I/O error) leave the
created file behind; errors inside the build loop leave it behind
unless the library removes (rather than truncates) it; a successful
build exits 0 with the output file present. -/
theorem build_abort_cases :
    (∀ (c : Bool) (s r : Except String Unit) (lib : Bool),
      NcdBuild.main ⟨false, c, s, r, lib⟩ = (1, false)) ∧
    (∀ (s r : Except String Unit) (lib : Bool),
      NcdBuild.main ⟨true, false, s, r, lib⟩ = (1, false)) ∧
    (∀ (e : String) (r : Except String Unit) (lib : Bool),
      NcdBuild.main ⟨true, true, Except.error e, r, lib⟩ = (1, true)) ∧
    (∀ (e : String) (lib : Bool),
      NcdBuild.main ⟨true, true, Except.ok (), Except.error e, lib⟩ =
        (1, if lib then false else true)) ∧
    (∀ lib : Bool,
      NcdBuild.main ⟨true, true, Except.ok (), Except.ok (), lib⟩ = (0, true)) :=
  ⟨fun _ _ _ _ => rfl, fun _ _ _ => rfl, fun _ _ _ => rfl, fun _ _ => rfl, fun _ => rfl⟩

/-- Claim C4: with the source selector `guess`, the lookup CLI chooses
the HTTP accessor if and only if the path contains the substring `//`,
and the local-file accessor otherwise. -/
theorem guess_selects_http_iff :
    ∀ path : List Char,
      NcdLookup.Source.new (some (("guess").toList)) path =
        (if NcdLookup.contSub path ('/' :: '/' :: []) = true then NcdLookup.Source.http
         else NcdLookup.Source.file) := by
  intro path
  rw [NcdLookup.Source.new]
  rw [if_neg (by decide), if_neg (by decide)]
  rfl

/-- Claim C5: the lookup CLI exits 0 when the reader returns a value
(writing it to stdout and nothing to stderr), exits 1 with no stderr
message when the key is absent, and exits 1 with the message on stderr
when the accessor, the reader construction, or the lookup fails. -/
theorem lookup_exit_codes :
    (∀ v : List Nat,
      NcdLookup.main (Except.ok ()) (Except.ok ()) (Except.ok (some v)) = ⟨0, v, none⟩) ∧
    (NcdLookup.main (Except.ok ()) (Except.ok ()) (Except.ok none) = ⟨1, [], none⟩) ∧
    (∀ (e : String) (rdr : Except String Unit) (g : Except String (Option (List Nat))),
      NcdLookup.main (Except.error e) rdr g = ⟨1, [], some e⟩) ∧
    (∀ (e : String) (g : Except String (Option (List Nat))),
      NcdLookup.main (Except.ok ()) (Except.error e) g = ⟨1, [], some e⟩) ∧
    (∀ e : String,
      NcdLookup.main (Except.ok ()) (Except.ok ()) (Except.error e) = ⟨1, [], some e⟩) :=
  ⟨fun _ => rfl, rfl, fun _ _ _ => rfl, fun _ _ => rfl, fun _ => rfl⟩

/-- Claim C6: the `careful` preset sets target page size 16384, target
load factor 0.75, heap wiggle room 1.1 and rebuild page factor 1.1,
whereas the defaults are 32768, 0.5, 1.25 and 1.2. -/
theorem careful_config_values :
    NcdBuild.make_careful_config.target_page_size = 16384 ∧
    NcdBuild.make_careful_config.target_load_factor = 0.75 ∧
    NcdBuild.make_careful_config.heap_wiggle_room = 1.1 ∧
    NcdBuild.make_careful_config.rebuild_page_factor = 1.1 ∧
    NcdBuild.NCDBuildConfig.new.target_page_size = 32768 ∧
    NcdBuild.NCDBuildConfig.new.target_load_factor = 0.5 ∧
    NcdBuild.NCDBuildConfig.new.heap_wiggle_room = 1.25 ∧
    NcdBuild.NCDBuildConfig.new.rebuild_page_factor = 1.2 :=
  ⟨rfl, rfl, rfl, rfl, rfl, rfl, rfl, rfl⟩

/-- Claim C7: `make_flat_config` maps the flat-format options onto the
flat-source configuration: the 1-based field index, the optional
explicit separator, `skip_blank` unless keep-blank, the optional
comment character, `inline_comments` (which `clap` permits only
together with a comment character), and `trim_tail` unless keep-tail;
with no flags the result is field 1, whitespace separator, skip blanks,
no comment character, no inline comments, trim the tail. -/
theorem make_flat_config_mapping :
    (∀ m : NcdBuild.FlatMatches, (m.inline_comments = true → m.comment ≠ none) →
      (NcdBuild.make_flat_config m).index = m.field ∧
      (NcdBuild.make_flat_config m).separator = m.delimiter ∧
      (NcdBuild.make_flat_config m).skip_blank = !m.keep_blank ∧
      (NcdBuild.make_flat_config m).comment_char = m.comment ∧
      (NcdBuild.make_flat_config m).inline_comments = m.inline_comments ∧
      ((NcdBuild.make_flat_config m).inline_comments = true →
        (NcdBuild.make_flat_config m).comment_char ≠ none) ∧
      (NcdBuild.make_flat_config m).trim_tail = !m.keep_tail) ∧
    NcdBuild.make_flat_config ⟨1, none, false, none, false, false⟩ =
      ⟨1, none, true, none, false, true⟩ := by
  constructor
  · intro m hreq
    exact ⟨rfl, rfl, rfl, rfl, rfl, fun hi => hreq hi, rfl⟩
  · rfl

/-- Witness for C7 at a concrete input (the options used by the
repository's own `test_flat_config`). -/
theorem make_flat_config_mapping_witness :
    (NcdBuild.make_flat_config ⟨2, none, true, some ("#"), true, true⟩).skip_blank = false ∧
    (NcdBuild.make_flat_config ⟨2, none, true, some ("#"), true, true⟩).index = 2 :=
  ⟨(make_flat_config_mapping.1 ⟨2, none, true, some ("#"), true, true⟩ (by simp)).2.2.1,
   (make_flat_config_mapping.1 ⟨2, none, true, some ("#"), true, true⟩ (by simp)).1⟩

/-- Claim C9: `Source::new` treats every selector other than exactly
`file` or `http` — `guess`, any unrecognised string, or an absent
value — identically, falling back to the path-based guess. -/
theorem source_new_fallback (arg : Option (List Char)) (path : List Char)
    (h1 : arg ≠ some (("file").toList)) (h2 : arg ≠ some (("http").toList)) :
    NcdLookup.Source.new arg path = NcdLookup.guess_source path := by
  rcases arg with _ | a
  · rfl
  · rw [NcdLookup.Source.new]
    rw [if_neg (fun hc => h1 (by rw [hc])), if_neg (fun hc => h2 (by rw [hc]))]

/-- Witness for C9 at a concrete input: the `guess` selector falls back
to the guessing rule. -/
theorem source_new_fallback_witness :
    NcdLookup.Source.new (some (("guess").toList)) ('a' :: []) =
      NcdLookup.guess_source ('a' :: []) :=
  source_new_fallback _ _ (by decide) (by decide)

/-- Claim C10: `modify_build_config` changes only the configuration
fields whose command-line option is present — each of the seven fields
keeps its prior value whenever its option is absent. -/
theorem modify_build_config_frame :
    ∀ (c : NcdBuild.NCDBuildConfig) (m : NcdBuild.BuildMatches),
      (m.page_size = none →
        (NcdBuild.modify_build_config c m).target_page_size = c.target_page_size) ∧
      (m.load_factor = none →
        (NcdBuild.modify_build_config c m).target_load_factor = c.target_load_factor) ∧
      (m.heap_wiggle = none →
        (NcdBuild.modify_build_config c m).heap_wiggle_room = c.heap_wiggle_room) ∧
      (m.min_entries = none →
        (NcdBuild.modify_build_config c m).min_entries_per_page = c.min_entries_per_page) ∧
      (m.external_threshold = none →
        (NcdBuild.modify_build_config c m).external_trheshold = c.external_trheshold) ∧
      (m.rebuild_factor = none →
        (NcdBuild.modify_build_config c m).rebuild_page_factor = c.rebuild_page_factor) ∧
      (m.force_header_size = none →
        (NcdBuild.modify_build_config c m).force_header_size = c.force_header_size) := by
  intro c m
  obtain ⟨p, l, hw, mi, e, r, f⟩ := m
  rcases p with _ | p <;> rcases l with _ | l <;> rcases hw with _ | hw <;>
    rcases mi with _ | mi <;> rcases e with _ | e <;> rcases r with _ | r <;>
    rcases f with _ | f <;>
    simp [NcdBuild.modify_build_config]

/-- Witness for C10 at a concrete input: with no options present, the
careful configuration passes through `modify_build_config` unchanged
in every field. -/
theorem modify_build_config_frame_witness :
    (NcdBuild.modify_build_config NcdBuild.make_careful_config
        ⟨none, none, none, none, none, none, none⟩).target_page_size =
      NcdBuild.make_careful_config.target_page_size ∧
    (NcdBuild.modify_build_config NcdBuild.make_careful_config
        ⟨none, none, none, none, none, none, none⟩).target_load_factor =
      NcdBuild.make_careful_config.target_load_factor ∧
    (NcdBuild.modify_build_config NcdBuild.make_careful_config
        ⟨none, none, none, none, none, none, none⟩).heap_wiggle_room =
      NcdBuild.make_careful_config.heap_wiggle_room ∧
    (NcdBuild.modify_build_config NcdBuild.make_careful_config
        ⟨none, none, none, none, none, none, none⟩).min_entries_per_page =
      NcdBuild.make_careful_config.min_entries_per_page ∧
    (NcdBuild.modify_build_config NcdBuild.make_careful_config
        ⟨none, none, none, none, none, none, none⟩).external_trheshold =
      NcdBuild.make_careful_config.external_trheshold ∧
    (NcdBuild.modify_build_config NcdBuild.make_careful_config
        ⟨none, none, none, none, none, none, none⟩).rebuild_page_factor =
      NcdBuild.make_careful_config.rebuild_page_factor ∧
    (NcdBuild.modify_build_config NcdBuild.make_careful_config
        ⟨none, none, none, none, none, none, none⟩).force_header_size =
      NcdBuild.make_careful_config.force_header_size :=
  ⟨(modify_build_config_frame _ _).1 rfl,
   (modify_build_config_frame _ _).2.1 rfl,
   (modify_build_config_frame _ _).2.2.1 rfl,
   (modify_build_config_frame _ _).2.2.2.1 rfl,
   (modify_build_config_frame _ _).2.2.2.2.1 rfl,
   (modify_build_config_frame _ _).2.2.2.2.2.1 rfl,
   (modify_build_config_frame _ _).2.2.2.2.2.2 rfl⟩
